import Mathlib

/-!
Verification of the swapem core: template parsing, data-tree resolution,
and the incremental swap scanner.

Shallow embedding of the TypeScript sources:
* `src/swap-directive-template.ts` (`SwapDirectiveTemplate.fromString`),
* `src/swap-transform.ts` (`getValue`, `lookingForDirectiveState`,
  `consumeWhitespaceAndThen`/`whitespaceConsumerState`, `inDirectiveState`,
  `SwapTransform._transform`).

Strings are modelled as `List Char` (JavaScript strings, indexed
character-wise; `input`/`nextIndex` in the source is represented by the list
of not-yet-consumed characters of the current chunk).
-/

/-- JavaScript strings, character by character. -/
abbrev Str := List Char

deriving instance DecidableEq for Except

/-- The character class of the JavaScript regular expression `\s`
(ECMAScript WhiteSpace plus LineTerminator), used by `/\s/.test`,
`String.prototype.trim` and `split(/\s+/)` in the sources. -/
def jsWhitespace (c : Char) : Bool :=
  c == ' ' || c == '\t' || c == '\n' || c == '\r' ||
  c == '\x0b' || c == '\x0c' || c == '\u00a0' || c == '\u1680' ||
  ('\u2000' ≤ c && c ≤ '\u200a') || c == '\u2028' || c == '\u2029' ||
  c == '\u202f' || c == '\u205f' || c == '\u3000' || c == '\ufeff'

/-- JavaScript `String.prototype.trim`: remove leading and trailing
whitespace (the same class as `\s`). -/
def jsTrim (s : Str) : Str :=
  ((s.dropWhile jsWhitespace).reverse.dropWhile jsWhitespace).reverse

/-- Worker for `jsSplit`, with a fuel argument bounding the number of
consumed characters.  Every recursive call shortens the second argument by
at least one character (the separator is non-empty there), so with fuel
`s.length` the fuel-exhausted branch is unreachable. -/
def jsSplitFuel (sep : Str) : Nat → Str → Str → List Str
  | _, [], acc => [acc.reverse]
  | 0, s, acc => [acc.reverse ++ s]
  | fuel + 1, c :: rest, acc =>
    if sep.isPrefixOf (c :: rest) then
      acc.reverse :: jsSplitFuel sep fuel (List.drop sep.length (c :: rest)) []
    else
      jsSplitFuel sep fuel rest (c :: acc)

/-- JavaScript `String.prototype.split` with a string separator, as used by
`valuePath.split(separator)` in `getValue`: splits on each leftmost literal
occurrence of `sep`; an empty separator splits into single characters. -/
def jsSplit (sep s : Str) : List Str :=
  match sep with
  | [] => s.map fun c => [c]
  | _ :: _ => jsSplitFuel sep s.length s []

/-- JavaScript `slice(0, -n)` on a string (used as
`stateBuffer.slice(0, -template.end.length)`): for `n = 0` JavaScript yields
the empty string (`slice(0, -0) = slice(0, 0)`), otherwise it drops the last
`n` characters. -/
def jsSliceToNeg (s : Str) (n : Nat) : Str :=
  if n = 0 then [] else s.take (s.length - n)

/-- A node of the swap data tree (`DataNode` in `swap-data.ts`): either a
terminal string value or a mapping from keys to child nodes. -/
inductive DataNode : Type where
  | leaf (value : Str)
  | node (entries : List (Str × DataNode))

/-- The error conditions raised by the core (the `TypeError`s of `getValue`
and the directive-length `Error` of `inDirectiveState`). -/
inductive Err : Type where
  | indexIntoLeaf (path : Str)
  | unknownKey (segment path : Str)
  | notALeaf (path : Str)
  | directiveTooLong
deriving DecidableEq

/-- The message text of each error, mirroring the strings in
`swap-transform.ts`. -/
def Err.message : Err → Str
  | .indexIntoLeaf p =>
      "Tried to index into a leaf value in path \"".data ++ p ++ "\"".data
  | .unknownKey seg p =>
      "Tried to index with a non-existent key \"".data ++ seg ++
        "\" in path \"".data ++ p ++ "\"".data
  | .notALeaf p =>
      "Value path \"".data ++ p ++ "\" didn't reach a leaf value".data
  | .directiveTooLong =>
      "Swap directive path is too long (over 1024 characters!). The directive end token is likely missing.".data

/-- The `for (const segment of valuePath.split(separator))` loop of
`getValue`, walking the tree segment by segment, followed by the final leaf
check.  `path` is the full original `valuePath` (used in error messages). -/
def getValueGo (path : Str) : DataNode → List Str → Except Err Str
  | .leaf s, [] => .ok s
  | .node _, [] => .error (.notALeaf path)
  | .leaf _, _ :: _ => .error (.indexIntoLeaf path)
  | .node entries, seg :: rest =>
    match List.lookup seg entries with
    | none => .error (.unknownKey seg path)
    | some child => getValueGo path child rest

/-- `getValue` from `swap-transform.ts`: resolve a value path against the
swap data. -/
def getValue (data : DataNode) (valuePath separator : Str) : Except Err Str :=
  getValueGo valuePath data (jsSplit separator valuePath)

/-- A swap directive template (`SwapDirectiveTemplate`): start token, path
separator token, end token.  The `end` field is called `endTok` because
`end` is a Lean keyword. -/
structure SwapDirectiveTemplate : Type where
  start : Str
  separator : Str
  endTok : Str
deriving DecidableEq

/-- The template-parsing errors of `SwapDirectiveTemplate.fromString`. -/
inductive TmplErr : Type where
  | tooMany (raw : Str)
  | tooFew (raw : Str)
deriving DecidableEq

/-- The message text of each template-parsing error. -/
def TmplErr.message : TmplErr → Str
  | .tooMany raw =>
      "Invalid directive template \"".data ++ raw ++
        "\" has too many tokens.".data
  | .tooFew raw =>
      "Invalid directive template \"".data ++ raw ++
        "\" has too few tokens.".data

/-- Worker for `jsSplitWs`.  The flag records whether we are inside a run of
whitespace that already terminated the previous token (so that further
whitespace is absorbed into the same separator run). -/
def splitWsGo : Bool → Str → Str → List Str
  | _, [], acc => [acc.reverse]
  | skipping, c :: rest, acc =>
    if jsWhitespace c then
      if skipping then splitWsGo true rest acc
      else acc.reverse :: splitWsGo true rest []
    else splitWsGo false rest (c :: acc)

/-- JavaScript `split(/\s+/)`: split on maximal runs of whitespace.  A
leading (resp. trailing) run produces a leading (resp. trailing) empty
token, and the empty string yields `[""]`, exactly as in JavaScript. -/
def jsSplitWs (s : Str) : List Str := splitWsGo false s []

/-- `SwapDirectiveTemplate.fromString`: trim the raw string, split it on
runs of whitespace, destructure into `[start, separator, end, ...rest]`;
reject a non-empty `rest` (too many tokens) and a missing `start`,
`separator` or `end` (too few tokens). -/
def SwapDirectiveTemplate.fromString (raw : Str) :
    Except TmplErr SwapDirectiveTemplate :=
  let toks := jsSplitWs (jsTrim raw)
  if toks.length > 3 then .error (.tooMany raw)
  else
    match toks[0]?, toks[1]?, toks[2]? with
    | some s, some sep, some e => .ok ⟨s, sep, e⟩
    | _, _, _ => .error (.tooFew raw)

/-!
## The scanner state machine

`SwapTransform` drives a state machine whose states are functions.  The
reachable state functions are `lookingForDirectiveState`, the
whitespace-consumer closure produced by
`consumeWhitespaceAndThen(inDirectiveState)`, and `inDirectiveState`; we
name them with the tags below.  `_transform` compares the returned state
function against the current one by reference; along every reachable
transition the two references are equal exactly when the two tags are equal
(a state function suspends by returning itself, and every genuine
transition changes the function: `lookingForDirectiveState` returns a fresh
whitespace-consumer closure, which in turn returns `inDirectiveState`,
which returns `lookingForDirectiveState`), so tag equality faithfully
models the reference comparison. -/
inductive STag : Type where
  | looking
  | whitespace
  | inDirective
deriving DecidableEq

/-- The mutable fields of `ProcessingContext` that the state functions
touch: the output accumulated for the current chunk, the cross-chunk
`stateBuffer`, and the not-yet-consumed characters of the current chunk
(`input`/`nextIndex`). -/
structure Ctx : Type where
  output : Str
  stateBuffer : Str
  remaining : Str
deriving DecidableEq

/-- The `while (stateBuffer.length < start.length)` loop of
`lookingForDirectiveState`, one character per iteration: a character that
matches the next expected character of the start token is accumulated;
a mismatching character is flushed to output together with the whole
accumulated buffer; exhausting the chunk suspends (returns the same state);
completing the start token transitions to the whitespace consumer. -/
def lookingGo (t : SwapDirectiveTemplate) (out buf : Str) : Str → STag × Ctx
  | [] =>
    if buf.length < t.start.length then (.looking, ⟨out, buf, []⟩)
    else (.whitespace, ⟨out, buf, []⟩)
  | c :: rest =>
    if buf.length < t.start.length then
      if t.start[buf.length]? = some c then lookingGo t out (buf ++ [c]) rest
      else lookingGo t (out ++ buf ++ [c]) [] rest
    else (.whitespace, ⟨out, buf, c :: rest⟩)

/-- `lookingForDirectiveState` from `swap-transform.ts`. -/
def lookingForDirectiveState (t : SwapDirectiveTemplate) (ctx : Ctx) :
    STag × Ctx :=
  lookingGo t ctx.output ctx.stateBuffer ctx.remaining

/-- The loop of the whitespace-consumer state: skip whitespace without
consuming the first non-whitespace character; an exhausted chunk suspends,
a non-whitespace character transitions to `inDirectiveState`. -/
def wsGo : Str → STag × Str
  | [] => (.whitespace, [])
  | c :: rest => if jsWhitespace c then wsGo rest else (.inDirective, c :: rest)

/-- The `whitespaceConsumerState` closure created by
`consumeWhitespaceAndThen(inDirectiveState)`. -/
def whitespaceConsumerState (ctx : Ctx) : STag × Ctx :=
  let r := wsGo ctx.remaining
  (r.1, { ctx with remaining := r.2 })

/-- The `while (!stateBuffer.endsWith(end))` loop of `inDirectiveState`:
if the buffer ends with the end token, resolve the path (buffer minus end
token, trimmed) and transition back to scanning; otherwise fail once the
buffer exceeds 1024 characters, suspend on an exhausted chunk, and append
the next character otherwise. -/
def inDirectiveLoopGo (t : SwapDirectiveTemplate) (data : DataNode)
    (out buf : Str) : Str → Except Err (STag × Ctx)
  | [] =>
    if t.endTok.isSuffixOf buf then
      match getValue data (jsTrim (jsSliceToNeg buf t.endTok.length)) t.separator with
      | .error e => .error e
      | .ok value => .ok (.looking, ⟨out ++ value, buf, []⟩)
    else if buf.length > 1024 then .error .directiveTooLong
    else .ok (.inDirective, ⟨out, buf, []⟩)
  | c :: rest =>
    if t.endTok.isSuffixOf buf then
      match getValue data (jsTrim (jsSliceToNeg buf t.endTok.length)) t.separator with
      | .error e => .error e
      | .ok value => .ok (.looking, ⟨out ++ value, buf, c :: rest⟩)
    else if buf.length > 1024 then .error .directiveTooLong
    else inDirectiveLoopGo t data out (buf ++ [c]) rest

/-- `inDirectiveState` from `swap-transform.ts`: read (and append) one
character first — suspending if the chunk is exhausted — then run the
end-token search loop. -/
def inDirectiveState (t : SwapDirectiveTemplate) (data : DataNode)
    (ctx : Ctx) : Except Err (STag × Ctx) :=
  match ctx.remaining with
  | [] => .ok (.inDirective, ctx)
  | c :: rest => inDirectiveLoopGo t data ctx.output (ctx.stateBuffer ++ [c]) rest

/-- One invocation of the current state function, as dispatched by
`_transform`'s loop body (`this.#nextState(this.#context)`). -/
def runStep (t : SwapDirectiveTemplate) (data : DataNode) :
    STag → Ctx → Except Err (STag × Ctx)
  | .looking, ctx => .ok (lookingForDirectiveState t ctx)
  | .whitespace, ctx => .ok (whitespaceConsumerState ctx)
  | .inDirective, ctx => inDirectiveState t data ctx

/-- Weight used in the fuel bound for `_transform`'s driver loop: only
`looking → whitespace → inDirective` transitions can consume no input, and
`tagWeight` strictly decreases along them. -/
def tagWeight : STag → Nat
  | .looking => 2
  | .whitespace => 1
  | .inDirective => 0

/-- `_transform`'s `while (nextIndex < input.length)` loop, with an explicit
fuel bound on the number of iterations.  Each iteration invokes the current
state function; when the returned state differs from the current one the
state buffer is reset (`if (newState !== this.#nextState)`); a thrown error
aborts the chunk.  The fuel `3 * remaining.length + tagWeight tag + 1` is an
upper bound on the number of iterations (`runChunkLoop_eq` below proves the
zero-fuel branch unreachable), because every iteration either consumes a
character or decreases `tagWeight`. -/
def runChunkFuel (t : SwapDirectiveTemplate) (data : DataNode) :
    Nat → STag → Ctx → Except Err (STag × Ctx)
  | 0, tag, ctx => .ok (tag, ctx)
  | fuel + 1, tag, ctx =>
    if ctx.remaining = [] then .ok (tag, ctx)
    else
      match runStep t data tag ctx with
      | .error e => .error e
      | .ok (tag', ctx') =>
        runChunkFuel t data fuel tag'
          (if tag' = tag then ctx' else { ctx' with stateBuffer := [] })

/-- Sufficient fuel for `runChunkFuel` on a given state. -/
def chunkFuel (tag : STag) (ctx : Ctx) : Nat :=
  3 * ctx.remaining.length + tagWeight tag + 1

/-- `_transform`'s driver loop on one chunk, from a given state function and
context. -/
def runChunkLoop (t : SwapDirectiveTemplate) (data : DataNode) (tag : STag)
    (ctx : Ctx) : Except Err (STag × Ctx) :=
  runChunkFuel t data (chunkFuel tag ctx) tag ctx

/-- `_transform` on one chunk: start with the carried-over state tag and
state buffer, a fresh cursor and empty per-chunk output; on success push the
chunk's output and carry the final tag and buffer to the next chunk; on a
thrown error invoke the callback with the error and push nothing.  Returns
`(tag, stateBuffer, pushed output)`. -/
def runChunk (t : SwapDirectiveTemplate) (data : DataNode) (tag : STag)
    (buf : Str) (chunk : Str) : Except Err (STag × Str × Str) :=
  match runChunkLoop t data tag ⟨[], buf, chunk⟩ with
  | .error e => .error e
  | .ok (tag', ctx') => .ok (tag', ctx'.stateBuffer, ctx'.output)

/-- Feed a list of chunks through `_transform` in order, concatenating the
pushed outputs; stop at the first error (an errored stream is failed and
processes nothing further). -/
def runChunks (t : SwapDirectiveTemplate) (data : DataNode) :
    STag → Str → List Str → Except Err (STag × Str × Str)
  | tag, buf, [] => .ok (tag, buf, [])
  | tag, buf, chunk :: rest =>
    match runChunk t data tag buf chunk with
    | .error e => .error e
    | .ok (tag', buf', out) =>
      match runChunks t data tag' buf' rest with
      | .error e => .error e
      | .ok (tag'', buf'', out') => .ok (tag'', buf'', out ++ out')

/-- Whole-stream processing from the initial state of `SwapTransform`
(`#nextState = lookingForDirectiveState`, empty state buffer). -/
def processStream (t : SwapDirectiveTemplate) (data : DataNode)
    (chunks : List Str) : Except Err (STag × Str × Str) :=
  runChunks t data .looking [] chunks

/-- Modelled from the spec: the observable emissions of the stream.  The
per-chunk behaviour (`push` only after the whole chunk succeeded, nothing
pushed on the error path) is `_transform`'s code; that a stream whose
callback received an error is failed — no later chunk is processed and
nothing further is ever pushed — is the Node.js `Transform` contract, which
is outside `src/` ("It signals failure by surfacing an error that
terminates the stream; no further output follows after an error").
Returns the list of pushed outputs and the terminal error, if any. -/
def runChunksTrace (t : SwapDirectiveTemplate) (data : DataNode) :
    STag → Str → List Str → List Str × Option Err
  | _, _, [] => ([], none)
  | tag, buf, chunk :: rest =>
    match runChunk t data tag buf chunk with
    | .error e => ([], some e)
    | .ok (tag', buf', out) =>
      let r := runChunksTrace t data tag' buf' rest
      (out :: r.1, r.2)

/-- Modelled from the spec: what the stream delivers at end of input.
`SwapTransform` overrides only `_transform` and defines no `_flush`, so at
end of stream Node's `Transform` emits nothing beyond the per-chunk pushes:
the total output is the concatenation of the per-chunk outputs, whatever is
left in the state buffer is discarded, and a stream that saw no error ends
without error. -/
def endStream (r : Except Err (STag × Str × Str)) : Option Str :=
  match r with
  | .error _ => none
  | .ok (_, _, out) => some out

/-- Split a text into one-character chunks (the finest streaming
granularity). -/
def oneCharChunks (s : Str) : List Str := s.map fun c => [c]

/-- The template parsed from `"<! . !>"`. -/
def tmplBang : SwapDirectiveTemplate := ⟨"<!".data, ".".data, "!>".data⟩

/-- The data tree `{"color":{"red":"#ff0000"}}`. -/
def dataColorRed : DataNode :=
  .node [("color".data, .node [("red".data, .leaf "#ff0000".data)])]

/-- The template parsed from `">>< . <<>"`. -/
def tmplFrame : SwapDirectiveTemplate := ⟨">><".data, ".".data, "<<>".data⟩

/-- The data tree `{"config":{"graphics":{"framerate":"60"}}}`. -/
def dataFrame : DataNode :=
  .node [("config".data,
    .node [("graphics".data, .node [("framerate".data, .leaf "60".data)])])]

/-- The streamed text of end-to-end scenario 2. -/
def frameText : Str := "The frame rate is >><config.graphics.framerate<<>!".data

/-- A template whose start token `"ab"` overlaps itself after a partial
match (`"a"` then `"a"` again), with separator `"."` and end token `"e"`. -/
def tmplAb : SwapDirectiveTemplate := ⟨"ab".data, ".".data, "e".data⟩

/-- The data tree `{"x":"1"}`. -/
def dataX : DataNode := .node [("x".data, .leaf "1".data)]

/-!
## Lemmas about the individual state functions

The central facts are, for each state function: how a run over `a ++ b`
decomposes into a run over `a` followed by a resumption over `b`
(`…_append`), that a suspension (returning the own tag) happens exactly at
the end of the chunk, that the chunk cursor never moves backwards, and that
the accumulated output is only ever appended to (`…_shift`). -/

theorem lookingGo_full (t : SwapDirectiveTemplate) (out buf rem : Str)
    (h : ¬ buf.length < t.start.length) :
    lookingGo t out buf rem = (.whitespace, ⟨out, buf, rem⟩) := by
  cases rem <;> simp only [lookingGo, if_neg h]

theorem lookingGo_nil_lt (t : SwapDirectiveTemplate) (out buf : Str)
    (h : buf.length < t.start.length) :
    lookingGo t out buf [] = (.looking, ⟨out, buf, []⟩) := by
  simp only [lookingGo, if_pos h]

theorem lookingGo_cons_match (t : SwapDirectiveTemplate) (out buf : Str)
    (c : Char) (rest : Str) (h : buf.length < t.start.length)
    (hc : t.start[buf.length]? = some c) :
    lookingGo t out buf (c :: rest) = lookingGo t out (buf ++ [c]) rest := by
  simp only [lookingGo, if_pos h, if_pos hc]

theorem lookingGo_cons_mismatch (t : SwapDirectiveTemplate) (out buf : Str)
    (c : Char) (rest : Str) (h : buf.length < t.start.length)
    (hc : ¬ t.start[buf.length]? = some c) :
    lookingGo t out buf (c :: rest) =
      lookingGo t (out ++ buf ++ [c]) [] rest := by
  simp only [lookingGo, if_pos h, if_neg hc]

theorem lookingGo_append (t : SwapDirectiveTemplate) (b : Str) :
    ∀ (rem out buf : Str),
      lookingGo t out buf (rem ++ b) =
        (let r := lookingGo t out buf rem
         if r.1 = .looking then lookingGo t r.2.output r.2.stateBuffer b
         else (r.1, ⟨r.2.output, r.2.stateBuffer, r.2.remaining ++ b⟩)) := by
  intro rem
  induction rem with
  | nil =>
    intro out buf
    by_cases h : buf.length < t.start.length
    · rw [lookingGo_nil_lt t out buf h]
      simp
    · rw [lookingGo_full t out buf _ h, lookingGo_full t out buf [] h]
      simp
  | cons c rest ih =>
    intro out buf
    by_cases h : buf.length < t.start.length
    · by_cases hc : t.start[buf.length]? = some c
      · rw [List.cons_append, lookingGo_cons_match t out buf c _ h hc,
          lookingGo_cons_match t out buf c rest h hc]
        exact ih out (buf ++ [c])
      · rw [List.cons_append, lookingGo_cons_mismatch t out buf c _ h hc,
          lookingGo_cons_mismatch t out buf c rest h hc]
        exact ih (out ++ buf ++ [c]) []
    · rw [lookingGo_full t out buf _ h, lookingGo_full t out buf _ h]
      simp

theorem lookingGo_susp (t : SwapDirectiveTemplate) :
    ∀ (rem out buf : Str),
      (lookingGo t out buf rem).1 = .looking →
        (lookingGo t out buf rem).2.remaining = [] ∧
          (lookingGo t out buf rem).2.stateBuffer.length < t.start.length := by
  intro rem
  induction rem with
  | nil =>
    intro out buf h
    by_cases hlt : buf.length < t.start.length
    · rw [lookingGo_nil_lt t out buf hlt]
      exact ⟨rfl, hlt⟩
    · rw [lookingGo_full t out buf _ hlt] at h
      exact absurd h (by simp)
  | cons c rest ih =>
    intro out buf h
    by_cases hlt : buf.length < t.start.length
    · by_cases hc : t.start[buf.length]? = some c
      · rw [lookingGo_cons_match t out buf c rest hlt hc] at h ⊢
        exact ih out (buf ++ [c]) h
      · rw [lookingGo_cons_mismatch t out buf c rest hlt hc] at h ⊢
        exact ih (out ++ buf ++ [c]) [] h
    · rw [lookingGo_full t out buf _ hlt] at h
      exact absurd h (by simp)

theorem lookingGo_not_inDirective (t : SwapDirectiveTemplate) :
    ∀ (rem out buf : Str), (lookingGo t out buf rem).1 ≠ .inDirective := by
  intro rem
  induction rem with
  | nil =>
    intro out buf
    by_cases hlt : buf.length < t.start.length
    · rw [lookingGo_nil_lt t out buf hlt]; simp
    · rw [lookingGo_full t out buf _ hlt]; simp
  | cons c rest ih =>
    intro out buf
    by_cases hlt : buf.length < t.start.length
    · by_cases hc : t.start[buf.length]? = some c
      · rw [lookingGo_cons_match t out buf c rest hlt hc]
        exact ih out (buf ++ [c])
      · rw [lookingGo_cons_mismatch t out buf c rest hlt hc]
        exact ih (out ++ buf ++ [c]) []
    · rw [lookingGo_full t out buf _ hlt]; simp

theorem lookingGo_rem_le (t : SwapDirectiveTemplate) :
    ∀ (rem out buf : Str),
      (lookingGo t out buf rem).2.remaining.length ≤ rem.length := by
  intro rem
  induction rem with
  | nil =>
    intro out buf
    by_cases hlt : buf.length < t.start.length
    · rw [lookingGo_nil_lt t out buf hlt]
    · rw [lookingGo_full t out buf _ hlt]
  | cons c rest ih =>
    intro out buf
    by_cases hlt : buf.length < t.start.length
    · by_cases hc : t.start[buf.length]? = some c
      · rw [lookingGo_cons_match t out buf c rest hlt hc]
        exact (ih out (buf ++ [c])).trans (Nat.le_succ _)
      · rw [lookingGo_cons_mismatch t out buf c rest hlt hc]
        exact (ih (out ++ buf ++ [c]) []).trans (Nat.le_succ _)
    · rw [lookingGo_full t out buf _ hlt]

theorem lookingGo_shift (t : SwapDirectiveTemplate) :
    ∀ (rem out buf : Str),
      lookingGo t out buf rem =
        (let r := lookingGo t [] buf rem
         (r.1, ⟨out ++ r.2.output, r.2.stateBuffer, r.2.remaining⟩)) := by
  intro rem
  induction rem with
  | nil =>
    intro out buf
    by_cases hlt : buf.length < t.start.length
    · rw [lookingGo_nil_lt t out buf hlt, lookingGo_nil_lt t [] buf hlt]
      simp
    · rw [lookingGo_full t out buf _ hlt, lookingGo_full t [] buf _ hlt]
      simp
  | cons c rest ih =>
    intro out buf
    by_cases hlt : buf.length < t.start.length
    · by_cases hc : t.start[buf.length]? = some c
      · rw [lookingGo_cons_match t out buf c rest hlt hc,
          lookingGo_cons_match t [] buf c rest hlt hc]
        exact ih out (buf ++ [c])
      · rw [lookingGo_cons_mismatch t out buf c rest hlt hc,
          lookingGo_cons_mismatch t [] buf c rest hlt hc,
          ih (out ++ buf ++ [c]) [], ih ([] ++ buf ++ [c]) []]
        simp [List.append_assoc]
    · rw [lookingGo_full t out buf _ hlt, lookingGo_full t [] buf _ hlt]
      simp

theorem lookingGo_conserve (t : SwapDirectiveTemplate) :
    ∀ (rem out buf : Str),
      (lookingGo t out buf rem).2.output ++
          (lookingGo t out buf rem).2.stateBuffer ++
          (lookingGo t out buf rem).2.remaining =
        out ++ buf ++ rem := by
  intro rem
  induction rem with
  | nil =>
    intro out buf
    by_cases hlt : buf.length < t.start.length
    · rw [lookingGo_nil_lt t out buf hlt]
    · rw [lookingGo_full t out buf _ hlt]
  | cons c rest ih =>
    intro out buf
    by_cases hlt : buf.length < t.start.length
    · by_cases hc : t.start[buf.length]? = some c
      · rw [lookingGo_cons_match t out buf c rest hlt hc, ih out (buf ++ [c])]
        simp
      · rw [lookingGo_cons_mismatch t out buf c rest hlt hc,
          ih (out ++ buf ++ [c]) []]
        simp
    · rw [lookingGo_full t out buf _ hlt]

theorem wsGo_eq :
    ∀ rem : Str,
      wsGo rem =
        (if rem.dropWhile jsWhitespace = [] then .whitespace else .inDirective,
          rem.dropWhile jsWhitespace) := by
  intro rem
  induction rem with
  | nil => simp [wsGo]
  | cons c rest ih =>
    by_cases hc : jsWhitespace c <;> simp [wsGo, List.dropWhile_cons, hc, ih]

/-- When the buffer already ends with the end token, the directive loop
resolves the path (buffer minus end token, trimmed) without consuming any
input. -/
theorem dirLoop_finish (t : SwapDirectiveTemplate) (data : DataNode)
    (out buf rem : Str) (h : t.endTok.isSuffixOf buf) :
    inDirectiveLoopGo t data out buf rem =
      match getValue data (jsTrim (jsSliceToNeg buf t.endTok.length))
          t.separator with
      | .error e => .error e
      | .ok value => .ok (.looking, ⟨out ++ value, buf, rem⟩) := by
  cases rem <;> simp only [inDirectiveLoopGo, if_pos h]

theorem dirLoop_tooLong (t : SwapDirectiveTemplate) (data : DataNode)
    (out buf rem : Str) (h1 : ¬ t.endTok.isSuffixOf buf)
    (h2 : buf.length > 1024) :
    inDirectiveLoopGo t data out buf rem = .error .directiveTooLong := by
  cases rem <;> simp only [inDirectiveLoopGo, if_neg h1, if_pos h2]

theorem dirLoop_nil_cont (t : SwapDirectiveTemplate) (data : DataNode)
    (out buf : Str) (h1 : ¬ t.endTok.isSuffixOf buf)
    (h2 : ¬ buf.length > 1024) :
    inDirectiveLoopGo t data out buf [] = .ok (.inDirective, ⟨out, buf, []⟩) := by
  simp only [inDirectiveLoopGo, if_neg h1, if_neg h2]

theorem dirLoop_cons_cont (t : SwapDirectiveTemplate) (data : DataNode)
    (out buf : Str) (c : Char) (rest : Str)
    (h1 : ¬ t.endTok.isSuffixOf buf) (h2 : ¬ buf.length > 1024) :
    inDirectiveLoopGo t data out buf (c :: rest) =
      inDirectiveLoopGo t data out (buf ++ [c]) rest := by
  simp only [inDirectiveLoopGo, if_neg h1, if_neg h2]

/-- Resuming `inDirectiveState` after a suspension of its loop continues the
loop exactly where it stopped (the loop had already checked the end token
and the length bound before running out of input). -/
theorem dirLoop_resume (t : SwapDirectiveTemplate) (data : DataNode)
    (out buf b : Str) (h1 : ¬ t.endTok.isSuffixOf buf)
    (h2 : ¬ buf.length > 1024) :
    inDirectiveLoopGo t data out buf b =
      inDirectiveState t data ⟨out, buf, b⟩ := by
  cases b with
  | nil => rw [dirLoop_nil_cont t data out buf h1 h2]; rfl
  | cons c rest => rw [dirLoop_cons_cont t data out buf c rest h1 h2]; rfl

theorem dirLoop_append (t : SwapDirectiveTemplate) (data : DataNode)
    (b : Str) :
    ∀ (rem out buf : Str),
      inDirectiveLoopGo t data out buf (rem ++ b) =
        match inDirectiveLoopGo t data out buf rem with
        | .error e => .error e
        | .ok r =>
          if r.1 = .inDirective then
            inDirectiveState t data ⟨r.2.output, r.2.stateBuffer, b⟩
          else .ok (r.1, ⟨r.2.output, r.2.stateBuffer, r.2.remaining ++ b⟩) := by
  intro rem
  induction rem with
  | nil =>
    intro out buf
    by_cases h1 : t.endTok.isSuffixOf buf
    · rw [List.nil_append, dirLoop_finish t data out buf b h1,
        dirLoop_finish t data out buf [] h1]
      cases getValue data (jsTrim (jsSliceToNeg buf t.endTok.length))
          t.separator with
      | error e => rfl
      | ok value => simp
    · by_cases h2 : buf.length > 1024
      · rw [List.nil_append, dirLoop_tooLong t data out buf b h1 h2,
          dirLoop_tooLong t data out buf [] h1 h2]
      · rw [List.nil_append, dirLoop_nil_cont t data out buf h1 h2,
          dirLoop_resume t data out buf b h1 h2]
        rfl
  | cons c rest ih =>
    intro out buf
    by_cases h1 : t.endTok.isSuffixOf buf
    · rw [List.cons_append, dirLoop_finish t data out buf _ h1,
        dirLoop_finish t data out buf _ h1]
      cases getValue data (jsTrim (jsSliceToNeg buf t.endTok.length))
          t.separator with
      | error e => rfl
      | ok value => simp
    · by_cases h2 : buf.length > 1024
      · rw [List.cons_append, dirLoop_tooLong t data out buf _ h1 h2,
          dirLoop_tooLong t data out buf _ h1 h2]
      · rw [List.cons_append, dirLoop_cons_cont t data out buf c _ h1 h2,
          dirLoop_cons_cont t data out buf c rest h1 h2]
        exact ih out (buf ++ [c])

theorem dirLoop_rem_le (t : SwapDirectiveTemplate) (data : DataNode) :
    ∀ (rem out buf : Str) (r : STag × Ctx),
      inDirectiveLoopGo t data out buf rem = .ok r →
        r.2.remaining.length ≤ rem.length := by
  intro rem
  induction rem with
  | nil =>
    intro out buf r h
    by_cases h1 : t.endTok.isSuffixOf buf
    · rw [dirLoop_finish t data out buf [] h1] at h
      cases hv : getValue data (jsTrim (jsSliceToNeg buf t.endTok.length))
          t.separator with
      | error e => rw [hv] at h; cases h
      | ok value => rw [hv] at h; cases h; simp
    · by_cases h2 : buf.length > 1024
      · rw [dirLoop_tooLong t data out buf [] h1 h2] at h; cases h
      · rw [dirLoop_nil_cont t data out buf h1 h2] at h; cases h; simp
  | cons c rest ih =>
    intro out buf r h
    by_cases h1 : t.endTok.isSuffixOf buf
    · rw [dirLoop_finish t data out buf _ h1] at h
      cases hv : getValue data (jsTrim (jsSliceToNeg buf t.endTok.length))
          t.separator with
      | error e => rw [hv] at h; cases h
      | ok value => rw [hv] at h; cases h; simp
    · by_cases h2 : buf.length > 1024
      · rw [dirLoop_tooLong t data out buf _ h1 h2] at h; cases h
      · rw [dirLoop_cons_cont t data out buf c rest h1 h2] at h
        exact (ih out (buf ++ [c]) r h).trans (Nat.le_succ _)

theorem dirLoop_susp (t : SwapDirectiveTemplate) (data : DataNode) :
    ∀ (rem out buf : Str) (r : STag × Ctx),
      inDirectiveLoopGo t data out buf rem = .ok r → r.1 = .inDirective →
        r.2.remaining = [] := by
  intro rem
  induction rem with
  | nil =>
    intro out buf r h htag
    by_cases h1 : t.endTok.isSuffixOf buf
    · rw [dirLoop_finish t data out buf [] h1] at h
      cases hv : getValue data (jsTrim (jsSliceToNeg buf t.endTok.length))
          t.separator with
      | error e => rw [hv] at h; cases h
      | ok value => rw [hv] at h; cases h; cases htag
    · by_cases h2 : buf.length > 1024
      · rw [dirLoop_tooLong t data out buf [] h1 h2] at h; cases h
      · rw [dirLoop_nil_cont t data out buf h1 h2] at h; cases h; rfl
  | cons c rest ih =>
    intro out buf r h htag
    by_cases h1 : t.endTok.isSuffixOf buf
    · rw [dirLoop_finish t data out buf _ h1] at h
      cases hv : getValue data (jsTrim (jsSliceToNeg buf t.endTok.length))
          t.separator with
      | error e => rw [hv] at h; cases h
      | ok value => rw [hv] at h; cases h; cases htag
    · by_cases h2 : buf.length > 1024
      · rw [dirLoop_tooLong t data out buf _ h1 h2] at h; cases h
      · rw [dirLoop_cons_cont t data out buf c rest h1 h2] at h
        exact ih out (buf ++ [c]) r h htag

theorem dirLoop_shift (t : SwapDirectiveTemplate) (data : DataNode) :
    ∀ (rem out buf : Str),
      inDirectiveLoopGo t data out buf rem =
        (inDirectiveLoopGo t data [] buf rem).map fun r =>
          (r.1, ⟨out ++ r.2.output, r.2.stateBuffer, r.2.remaining⟩) := by
  intro rem
  induction rem with
  | nil =>
    intro out buf
    by_cases h1 : t.endTok.isSuffixOf buf
    · rw [dirLoop_finish t data out buf [] h1, dirLoop_finish t data [] buf [] h1]
      cases getValue data (jsTrim (jsSliceToNeg buf t.endTok.length))
          t.separator with
      | error e => rfl
      | ok value => simp [Except.map]
    · by_cases h2 : buf.length > 1024
      · rw [dirLoop_tooLong t data out buf [] h1 h2,
          dirLoop_tooLong t data [] buf [] h1 h2]
        rfl
      · rw [dirLoop_nil_cont t data out buf h1 h2,
          dirLoop_nil_cont t data [] buf h1 h2]
        simp [Except.map]
  | cons c rest ih =>
    intro out buf
    by_cases h1 : t.endTok.isSuffixOf buf
    · rw [dirLoop_finish t data out buf _ h1, dirLoop_finish t data [] buf _ h1]
      cases getValue data (jsTrim (jsSliceToNeg buf t.endTok.length))
          t.separator with
      | error e => rfl
      | ok value => simp [Except.map]
    · by_cases h2 : buf.length > 1024
      · rw [dirLoop_tooLong t data out buf _ h1 h2,
          dirLoop_tooLong t data [] buf _ h1 h2]
        rfl
      · rw [dirLoop_cons_cont t data out buf c rest h1 h2,
          dirLoop_cons_cont t data [] buf c rest h1 h2]
        exact ih out (buf ++ [c])

theorem dirEntry_nil (t : SwapDirectiveTemplate) (data : DataNode)
    (out buf : Str) :
    inDirectiveState t data ⟨out, buf, []⟩ = .ok (.inDirective, ⟨out, buf, []⟩) :=
  rfl

theorem dirEntry_append (t : SwapDirectiveTemplate) (data : DataNode)
    (out buf a b : Str) :
    inDirectiveState t data ⟨out, buf, a ++ b⟩ =
      match inDirectiveState t data ⟨out, buf, a⟩ with
      | .error e => .error e
      | .ok r =>
        if r.1 = .inDirective then
          inDirectiveState t data ⟨r.2.output, r.2.stateBuffer, b⟩
        else .ok (r.1, ⟨r.2.output, r.2.stateBuffer, r.2.remaining ++ b⟩) := by
  cases a with
  | nil => simp [inDirectiveState]
  | cons c rest =>
    show inDirectiveLoopGo t data out (buf ++ [c]) (rest ++ b) = _
    rw [dirLoop_append t data b rest out (buf ++ [c])]
    rfl

theorem dirEntry_rem_lt (t : SwapDirectiveTemplate) (data : DataNode)
    (out buf a : Str) (r : STag × Ctx) (ha : a ≠ [])
    (h : inDirectiveState t data ⟨out, buf, a⟩ = .ok r) :
    r.2.remaining.length < a.length := by
  cases a with
  | nil => exact absurd rfl ha
  | cons c rest =>
    have : inDirectiveLoopGo t data out (buf ++ [c]) rest = .ok r := h
    exact Nat.lt_succ_of_le (dirLoop_rem_le t data rest out (buf ++ [c]) r this)

theorem dirEntry_susp (t : SwapDirectiveTemplate) (data : DataNode)
    (out buf a : Str) (r : STag × Ctx)
    (h : inDirectiveState t data ⟨out, buf, a⟩ = .ok r)
    (htag : r.1 = .inDirective) : r.2.remaining = [] := by
  cases a with
  | nil =>
    rw [dirEntry_nil t data out buf] at h
    cases h
    rfl
  | cons c rest =>
    exact dirLoop_susp t data rest out (buf ++ [c]) r h htag

theorem dirEntry_shift (t : SwapDirectiveTemplate) (data : DataNode)
    (out buf rem : Str) :
    inDirectiveState t data ⟨out, buf, rem⟩ =
      (inDirectiveState t data ⟨[], buf, rem⟩).map fun r =>
        (r.1, ⟨out ++ r.2.output, r.2.stateBuffer, r.2.remaining⟩) := by
  cases rem with
  | nil => simp [dirEntry_nil, Except.map]
  | cons c rest =>
    show inDirectiveLoopGo t data out (buf ++ [c]) rest = _
    exact dirLoop_shift t data rest out (buf ++ [c])

/-!
## Lemmas about one driver step (`runStep`) -/

theorem dropWhile_length_le (p : Char → Bool) :
    ∀ l : Str, (l.dropWhile p).length ≤ l.length := by
  intro l
  induction l with
  | nil => simp
  | cons c rest ih =>
    by_cases hc : p c
    · rw [List.dropWhile_cons_of_pos hc]
      exact ih.trans (Nat.le_succ _)
    · rw [List.dropWhile_cons_of_neg hc]

theorem runStep_append (t : SwapDirectiveTemplate) (data : DataNode)
    (tag : STag) (out buf a b : Str) :
    runStep t data tag ⟨out, buf, a ++ b⟩ =
      match runStep t data tag ⟨out, buf, a⟩ with
      | .error e => .error e
      | .ok r =>
        if r.1 = tag then runStep t data tag ⟨r.2.output, r.2.stateBuffer, b⟩
        else .ok (r.1, ⟨r.2.output, r.2.stateBuffer, r.2.remaining ++ b⟩) := by
  cases tag with
  | looking =>
    show (Except.ok (lookingGo t out buf (a ++ b)) : Except Err (STag × Ctx)) = _
    rw [lookingGo_append t b a out buf]
    by_cases h : (lookingGo t out buf a).1 = .looking <;>
      simp [runStep, lookingForDirectiveState, h]
  | whitespace =>
    show (Except.ok (whitespaceConsumerState ⟨out, buf, a ++ b⟩) :
        Except Err (STag × Ctx)) = _
    by_cases h : a.dropWhile jsWhitespace = [] <;>
      simp [runStep, whitespaceConsumerState, wsGo_eq, List.dropWhile_append,
        List.isEmpty_iff, h]
  | inDirective => exact dirEntry_append t data out buf a b

theorem runStep_susp (t : SwapDirectiveTemplate) (data : DataNode)
    (tag : STag) (out buf a : Str) (r : STag × Ctx)
    (h : runStep t data tag ⟨out, buf, a⟩ = .ok r) (htag : r.1 = tag) :
    r.2.remaining = [] := by
  cases tag with
  | looking =>
    have h' : (Except.ok (lookingGo t out buf a) : Except Err (STag × Ctx)) =
        .ok r := h
    injection h' with hr
    subst hr
    exact (lookingGo_susp t a out buf htag).1
  | whitespace =>
    have h' : (Except.ok (whitespaceConsumerState ⟨out, buf, a⟩) :
        Except Err (STag × Ctx)) = .ok r := h
    injection h' with hr
    subst hr
    simp only [whitespaceConsumerState, wsGo_eq] at htag ⊢
    by_cases hd : a.dropWhile jsWhitespace = []
    · exact hd
    · simp [hd] at htag
  | inDirective => exact dirEntry_susp t data out buf a r h htag

theorem runStep_nil_susp (t : SwapDirectiveTemplate) (data : DataNode)
    (tag : STag) (out buf a : Str) (r : STag × Ctx)
    (h : runStep t data tag ⟨out, buf, a⟩ = .ok r) (htag : r.1 = tag) :
    runStep t data tag ⟨r.2.output, r.2.stateBuffer, []⟩ =
      .ok (tag, ⟨r.2.output, r.2.stateBuffer, []⟩) := by
  cases tag with
  | looking =>
    have h' : (Except.ok (lookingGo t out buf a) : Except Err (STag × Ctx)) =
        .ok r := h
    injection h' with hr
    subst hr
    have hlt := (lookingGo_susp t a out buf htag).2
    show (Except.ok (lookingGo t _ _ []) : Except Err (STag × Ctx)) = _
    rw [lookingGo_nil_lt t _ _ hlt]
  | whitespace => rfl
  | inDirective => rfl

theorem runStep_decrease (t : SwapDirectiveTemplate) (data : DataNode)
    (tag : STag) (out buf rem : Str) (r : STag × Ctx) (hrem : rem ≠ [])
    (h : runStep t data tag ⟨out, buf, rem⟩ = .ok r) :
    3 * r.2.remaining.length + tagWeight r.1 <
      3 * rem.length + tagWeight tag := by
  have hlen : 1 ≤ rem.length := by
    cases rem with
    | nil => exact absurd rfl hrem
    | cons c rest => simp
  cases tag with
  | looking =>
    have h' : (Except.ok (lookingGo t out buf rem) : Except Err (STag × Ctx)) =
        .ok r := h
    injection h' with hr
    subst hr
    rcases htag : (lookingGo t out buf rem).1 with _ | _ | _
    · have h2 := (lookingGo_susp t rem out buf htag).1
      simp only [htag, h2, tagWeight, List.length_nil]
      omega
    · have hle := lookingGo_rem_le t rem out buf
      simp only [htag, tagWeight]
      omega
    · exact absurd htag (lookingGo_not_inDirective t rem out buf)
  | whitespace =>
    have h' : (Except.ok (whitespaceConsumerState ⟨out, buf, rem⟩) :
        Except Err (STag × Ctx)) = .ok r := h
    injection h' with hr
    subst hr
    have hdw := dropWhile_length_le jsWhitespace rem
    by_cases hd : rem.dropWhile jsWhitespace = [] <;>
      · simp [whitespaceConsumerState, wsGo_eq, hd, tagWeight]
        omega
  | inDirective =>
    have hrem' := dirEntry_rem_lt t data out buf rem r hrem h
    have hw : tagWeight r.1 ≤ 2 := by cases r.1 <;> simp [tagWeight]
    have h0 : tagWeight STag.inDirective = 0 := rfl
    rw [h0]
    omega

theorem runStep_shift (t : SwapDirectiveTemplate) (data : DataNode)
    (tag : STag) (out buf rem : Str) :
    runStep t data tag ⟨out, buf, rem⟩ =
      (runStep t data tag ⟨[], buf, rem⟩).map fun r =>
        (r.1, ⟨out ++ r.2.output, r.2.stateBuffer, r.2.remaining⟩) := by
  cases tag with
  | looking =>
    show (Except.ok (lookingGo t out buf rem) : Except Err (STag × Ctx)) = _
    rw [lookingGo_shift t rem out buf]
    simp [runStep, lookingForDirectiveState, Except.map]
  | whitespace =>
    simp [runStep, whitespaceConsumerState, Except.map]
  | inDirective => exact dirEntry_shift t data out buf rem

/-!
## Lemmas about `_transform`'s driver loop -/

theorem runChunkFuel_irrel (t : SwapDirectiveTemplate) (data : DataNode) :
    ∀ (f1 f2 : Nat) (tag : STag) (ctx : Ctx),
      3 * ctx.remaining.length + tagWeight tag < f1 →
      3 * ctx.remaining.length + tagWeight tag < f2 →
      runChunkFuel t data f1 tag ctx = runChunkFuel t data f2 tag ctx := by
  intro f1
  induction f1 with
  | zero => intro f2 tag ctx h1 h2; omega
  | succ n ih =>
    intro f2 tag ctx h1 h2
    obtain ⟨out, buf, rem⟩ := ctx
    replace h1 : 3 * rem.length + tagWeight tag < n + 1 := h1
    cases f2 with
    | zero => omega
    | succ m =>
      replace h2 : 3 * rem.length + tagWeight tag < m + 1 := h2
      simp only [runChunkFuel]
      by_cases hrem : rem = []
      · simp [hrem]
      · simp only [hrem, if_neg, if_false]
        cases hstep : runStep t data tag ⟨out, buf, rem⟩ with
        | error e => rfl
        | ok r =>
          obtain ⟨tag', ctx'⟩ := r
          have hdec := runStep_decrease t data tag out buf rem (tag', ctx') hrem hstep
          simp only at hdec
          by_cases htag : tag' = tag
          · subst htag
            simp only [if_pos rfl]
            exact ih m tag' ctx' (by omega) (by omega)
          · simp only [if_neg htag]
            refine ih m tag' ⟨ctx'.output, [], ctx'.remaining⟩ ?le ?ri
            case le => show 3 * ctx'.remaining.length + tagWeight tag' < n; omega
            case ri => show 3 * ctx'.remaining.length + tagWeight tag' < m; omega

/-- One-step unfolding of `_transform`'s driver loop: stop on an exhausted
chunk; otherwise invoke the current state function, reset the state buffer
exactly when the returned state differs from the current one, propagate a
thrown error, and continue. -/
theorem runChunkLoop_eq (t : SwapDirectiveTemplate) (data : DataNode)
    (tag : STag) (out buf rem : Str) :
    runChunkLoop t data tag ⟨out, buf, rem⟩ =
      (if rem = [] then .ok (tag, ⟨out, buf, rem⟩)
       else
        match runStep t data tag ⟨out, buf, rem⟩ with
        | .error e => .error e
        | .ok r =>
          runChunkLoop t data r.1
            (if r.1 = tag then r.2 else ⟨r.2.output, [], r.2.remaining⟩)) := by
  by_cases hrem : rem = []
  · simp [runChunkLoop, chunkFuel, runChunkFuel, hrem]
  · have hcf : chunkFuel tag ⟨out, buf, rem⟩ =
        (3 * rem.length + tagWeight tag) + 1 := rfl
    rw [runChunkLoop, hcf]
    simp only [runChunkFuel, hrem, if_neg, if_false]
    cases hstep : runStep t data tag ⟨out, buf, rem⟩ with
    | error e => rfl
    | ok r =>
      obtain ⟨tag', ctx'⟩ := r
      have hdec := runStep_decrease t data tag out buf rem (tag', ctx') hrem hstep
      simp only at hdec
      by_cases htag : tag' = tag
      · subst htag
        simp only [if_pos rfl]
        rw [runChunkLoop]
        exact runChunkFuel_irrel t data _ _ tag' ctx' hdec
          (Nat.lt_succ_self _)
      · simp only [if_neg htag]
        rw [runChunkLoop]
        refine runChunkFuel_irrel t data _ _ tag' ⟨ctx'.output, [], ctx'.remaining⟩
          ?le ?ri
        case le =>
          show 3 * ctx'.remaining.length + tagWeight tag' <
            3 * rem.length + tagWeight tag
          omega
        case ri => exact Nat.lt_succ_self _

theorem runChunkLoop_nil (t : SwapDirectiveTemplate) (data : DataNode)
    (tag : STag) (out buf : Str) :
    runChunkLoop t data tag ⟨out, buf, []⟩ = .ok (tag, ⟨out, buf, []⟩) := by
  simp [runChunkLoop, chunkFuel, runChunkFuel]

theorem runChunkLoop_append_aux (t : SwapDirectiveTemplate) (data : DataNode) :
    ∀ (n : Nat) (tag : STag) (out buf a : Str),
      3 * a.length + tagWeight tag < n →
      ∀ b : Str,
        runChunkLoop t data tag ⟨out, buf, a ++ b⟩ =
          match runChunkLoop t data tag ⟨out, buf, a⟩ with
          | .error e => .error e
          | .ok r => runChunkLoop t data r.1 ⟨r.2.output, r.2.stateBuffer, b⟩ := by
  intro n
  induction n with
  | zero => intro tag out buf a h; omega
  | succ n ih =>
    intro tag out buf a hn b
    by_cases ha : a = []
    · subst ha
      rw [runChunkLoop_nil]
      simp
    · rw [runChunkLoop_eq t data tag out buf (a ++ b),
        if_neg (by simp [ha] : ¬ a ++ b = []),
        runStep_append t data tag out buf a b,
        runChunkLoop_eq t data tag out buf a, if_neg ha]
      cases hstep : runStep t data tag ⟨out, buf, a⟩ with
      | error e => rfl
      | ok r =>
        obtain ⟨tag', o, sb, re⟩ := r
        have hdec := runStep_decrease t data tag out buf a (tag', ⟨o, sb, re⟩) ha hstep
        simp only at hdec
        by_cases htag : tag' = tag
        · subst htag
          have hre : re = [] := by
            simpa using runStep_susp t data tag' out buf a (tag', ⟨o, sb, re⟩) hstep rfl
          subst hre
          have hnil := runStep_nil_susp t data tag' out buf a (tag', ⟨o, sb, []⟩) hstep rfl
          simp only at hnil
          simp only [eq_self_iff_true, if_true]
          rw [runChunkLoop_nil]
          by_cases hb : b = []
          · subst hb
            rw [hnil]
            simp [runChunkLoop_nil]
          · dsimp only
            rw [runChunkLoop_eq t data tag' o sb b, if_neg hb]
        · simp only [if_neg htag]
          refine (ih tag' o [] re ?bnd b).symm.symm
          case bnd =>
            show 3 * re.length + tagWeight tag' < n
            omega

theorem runChunkLoop_append (t : SwapDirectiveTemplate) (data : DataNode)
    (tag : STag) (out buf a b : Str) :
    runChunkLoop t data tag ⟨out, buf, a ++ b⟩ =
      match runChunkLoop t data tag ⟨out, buf, a⟩ with
      | .error e => .error e
      | .ok r => runChunkLoop t data r.1 ⟨r.2.output, r.2.stateBuffer, b⟩ :=
  runChunkLoop_append_aux t data (3 * a.length + tagWeight tag + 1) tag out buf a
    (by omega) b

theorem runChunkLoop_shift_aux (t : SwapDirectiveTemplate) (data : DataNode) :
    ∀ (n : Nat) (tag : STag) (out buf rem : Str),
      3 * rem.length + tagWeight tag < n →
      runChunkLoop t data tag ⟨out, buf, rem⟩ =
        (runChunkLoop t data tag ⟨[], buf, rem⟩).map fun r =>
          (r.1, ⟨out ++ r.2.output, r.2.stateBuffer, r.2.remaining⟩) := by
  intro n
  induction n with
  | zero => intro tag out buf rem h; omega
  | succ n ih =>
    intro tag out buf rem hn
    by_cases hrem : rem = []
    · subst hrem
      rw [runChunkLoop_nil, runChunkLoop_nil]
      simp [Except.map]
    · rw [runChunkLoop_eq t data tag out buf rem, if_neg hrem,
        runChunkLoop_eq t data tag [] buf rem, if_neg hrem,
        runStep_shift t data tag out buf rem]
      cases hstep : runStep t data tag ⟨[], buf, rem⟩ with
      | error e => rfl
      | ok r =>
        obtain ⟨tag', o, sb, re⟩ := r
        have hdec := runStep_decrease t data tag [] buf rem (tag', ⟨o, sb, re⟩) hrem hstep
        simp only at hdec
        simp only [Except.map]
        by_cases htag : tag' = tag
        · subst htag
          simp only [eq_self_iff_true, if_true]
          rw [ih tag' (out ++ o) sb re (by omega), ih tag' o sb re (by omega)]
          cases runChunkLoop t data tag' ⟨[], sb, re⟩ with
          | error e => rfl
          | ok r2 => simp [Except.map, List.append_assoc]
        · simp only [if_neg htag]
          rw [ih tag' (out ++ o) [] re (by omega), ih tag' o [] re (by omega)]
          cases runChunkLoop t data tag' ⟨[], [], re⟩ with
          | error e => rfl
          | ok r2 => simp [Except.map, List.append_assoc]

theorem runChunkLoop_shift (t : SwapDirectiveTemplate) (data : DataNode)
    (tag : STag) (out buf rem : Str) :
    runChunkLoop t data tag ⟨out, buf, rem⟩ =
      (runChunkLoop t data tag ⟨[], buf, rem⟩).map fun r =>
        (r.1, ⟨out ++ r.2.output, r.2.stateBuffer, r.2.remaining⟩) :=
  runChunkLoop_shift_aux t data (3 * rem.length + tagWeight tag + 1) tag out buf
    rem (by omega)

/-- Feeding the chunks of a stream one by one is the same as feeding their
concatenation as a single chunk: the final state, final state buffer,
concatenated output, and a possible error all agree.  This is the
cross-chunk correctness of the suspend/resume discipline. -/
theorem runChunks_eq_join (t : SwapDirectiveTemplate) (data : DataNode) :
    ∀ (chunks : List Str) (tag : STag) (buf : Str),
      runChunks t data tag buf chunks = runChunk t data tag buf chunks.flatten := by
  intro chunks
  induction chunks with
  | nil =>
    intro tag buf
    simp [runChunks, runChunk, List.flatten, runChunkLoop_nil]
  | cons c cs ih =>
    intro tag buf
    have hjoin : (c :: cs).flatten = c ++ cs.flatten := rfl
    rw [hjoin]
    conv_rhs => rw [runChunk]
    rw [runChunkLoop_append t data tag [] buf c cs.flatten]
    conv_lhs => rw [runChunks]
    rw [runChunk]
    cases hc : runChunkLoop t data tag ⟨[], buf, c⟩ with
    | error e => rfl
    | ok r =>
      obtain ⟨tag', o, sb, re⟩ := r
      dsimp only
      rw [runChunkLoop_shift t data tag' o sb cs.flatten, ih tag' sb, runChunk]
      cases runChunkLoop t data tag' ⟨[], sb, cs.flatten⟩ with
      | error e => rfl
      | ok r2 => simp [Except.map]

/-- While the Scanning state's buffer is the (proper) prefix of the start
token it has matched so far, and the start token occurs nowhere in the
pending text, the state never completes a start-token match: it stays the
Scanning state.  (A completed match would spell out the start token inside
`buf ++ rem`.) -/
theorem lookingGo_stays (t : SwapDirectiveTemplate) :
    ∀ (rem out buf : Str),
      buf = t.start.take buf.length →
      buf.length < t.start.length →
      ¬ t.start <:+: (buf ++ rem) →
      (lookingGo t out buf rem).1 = .looking := by
  intro rem
  induction rem with
  | nil =>
    intro out buf _ hlt _
    rw [lookingGo_nil_lt t out buf hlt]
  | cons c rest ih =>
    intro out buf hbuf hlt hinf
    by_cases hc : t.start[buf.length]? = some c
    · rw [lookingGo_cons_match t out buf c rest hlt hc]
      have hbuf' : buf ++ [c] = t.start.take ((buf ++ [c]).length) := by
        rw [List.length_append, List.length_singleton, List.take_succ, hc]
        simp [← hbuf]
      have hlt' : (buf ++ [c]).length < t.start.length := by
        rcases Nat.lt_or_ge (buf.length + 1) t.start.length with h | h
        · simpa using h
        · exfalso
          have heq : buf.length + 1 = t.start.length := le_antisymm hlt h
          have hfull : buf ++ [c] = t.start := by
            rw [hbuf', List.length_append, List.length_singleton, heq,
              List.take_length]
          exact hinf ⟨[], rest, by simp [← hfull]⟩
      refine ih out (buf ++ [c]) hbuf' hlt' ?_
      simpa using hinf
    · rw [lookingGo_cons_mismatch t out buf c rest hlt hc]
      refine ih (out ++ buf ++ [c]) [] (by simp) ?_ ?_
      · simpa using Nat.lt_of_le_of_lt (Nat.zero_le buf.length) hlt
      · intro hsub
        exact hinf (hsub.trans ⟨buf ++ [c], [], by simp⟩)

/-- If the start token occurs nowhere in the streamed text, the whole run
stays in the Scanning state and the emitted output followed by the final
partial-match buffer reproduces the text exactly: nothing is dropped, and
output differs from the text only by the buffered trailing partial match. -/
theorem runChunks_no_start (t : SwapDirectiveTemplate) (data : DataNode)
    (chunks : List Str) (hinf : ¬ t.start <:+: chunks.flatten) :
    ∃ out buf : Str,
      runChunks t data .looking [] chunks = .ok (.looking, buf, out) ∧
        out ++ buf = chunks.flatten := by
  rw [runChunks_eq_join]
  by_cases h0 : chunks.flatten = []
  · refine ⟨[], [], ?_, by simp [h0]⟩
    rw [h0, runChunk, runChunkLoop_nil]
  · have hpos : 0 < t.start.length := by
      rcases ts : t.start with _ | ⟨x, xs⟩
      · exact absurd (by simp [ts] : t.start <:+: chunks.flatten) hinf
      · simp [ts]
    have hstays := lookingGo_stays t chunks.flatten [] []
      (by simp) hpos (by simpa using hinf)
    have hsusp := lookingGo_susp t chunks.flatten [] [] hstays
    have hcons := lookingGo_conserve t chunks.flatten [] []
    rcases hr : lookingGo t [] [] chunks.flatten with ⟨tg, o, sb, re⟩
    rw [hr] at hstays hsusp hcons
    simp only at hstays hsusp hcons
    subst hstays
    obtain ⟨hre, -⟩ := hsusp
    subst hre
    have hloop : runChunkLoop t data .looking ⟨[], [], chunks.flatten⟩ =
        .ok (.looking, ⟨o, sb, []⟩) := by
      rw [runChunkLoop_eq t data .looking [] [] chunks.flatten, if_neg h0]
      show (match (Except.ok (lookingGo t [] [] chunks.flatten) :
          Except Err (STag × Ctx)) with
        | Except.error e => Except.error e
        | Except.ok r =>
          runChunkLoop t data r.1
            (if r.1 = STag.looking then r.2
             else ⟨r.2.output, [], r.2.remaining⟩)) =
        .ok (.looking, ⟨o, sb, []⟩)
      rw [hr]
      simp [runChunkLoop_nil]
    refine ⟨o, sb, ?_, ?_⟩
    · rw [runChunk, hloop]
    · simpa using hcons

/-- The resolver never raises the directive-length error: its failures are
exactly `IndexIntoLeaf`, `UnknownKey` and `NotALeaf`. -/
theorem getValueGo_ne_tooLong :
    ∀ (segs : List Str) (path : Str) (v : DataNode),
      getValueGo path v segs ≠ .error .directiveTooLong := by
  intro segs
  induction segs with
  | nil =>
    intro path v
    cases v <;> simp [getValueGo]
  | cons seg rest ih =>
    intro path v
    cases v with
    | leaf s => simp [getValueGo]
    | node entries =>
      simp only [getValueGo]
      cases List.lookup seg entries with
      | none => simp
      | some child => exact ih path child

theorem getValue_ne_tooLong (data : DataNode) (path sep : Str) :
    getValue data path sep ≠ .error .directiveTooLong :=
  getValueGo_ne_tooLong (jsSplit sep path) path data

/-!
## Claim theorems -/

/-- C1: For every template, data tree, and input text, the result of
processing — final state, final buffer, concatenated output, or error — is
the same for every way of splitting that text into chunks; in particular,
with template `">>< . <<>"` and data
`{"config":{"graphics":{"framerate":"60"}}}`, streaming
`"The frame rate is >><config.graphics.framerate<<>!"` one character at a
time yields `"The frame rate is 60!"`. -/
theorem chunking_granularity_invariance :
    (∀ (t : SwapDirectiveTemplate) (data : DataNode) (c1 c2 : List Str),
        c1.flatten = c2.flatten →
        runChunks t data .looking [] c1 = runChunks t data .looking [] c2) ∧
      processStream tmplFrame dataFrame (oneCharChunks frameText) =
        .ok (.looking, [], "The frame rate is 60!".data) := by
  constructor
  · intro t data c1 c2 h
    rw [runChunks_eq_join, runChunks_eq_join, h]
  · decide

/-- Witness for C1: the scenario-2 text fed as a single chunk and fed one
character at a time produce the same result. -/
theorem chunking_granularity_invariance_witness :
    runChunks tmplFrame dataFrame .looking [] [frameText] =
      runChunks tmplFrame dataFrame .looking [] (oneCharChunks frameText) :=
  chunking_granularity_invariance.1 tmplFrame dataFrame [frameText]
    (oneCharChunks frameText) (by decide)

/-- C2 counterexample: the text `"abc<"` contains zero swap directives for
template `"<! . !>"` (the start token `"<!"` does not even occur in it),
yet the emitted output is `"abc"`, not the input `"abc<"`: the trailing
partially-matched `"<"` stays in the buffer and is never flushed. -/
theorem no_directive_passthrough_cex :
    processStream tmplBang dataColorRed ["abc<".data] =
        .ok (.looking, "<".data, "abc".data) ∧
      ¬ "<!".data <:+: "abc<".data ∧
      "abc".data ≠ "abc<".data := by
  refine ⟨by decide, by decide, by decide⟩

/-- C2 (amended): for every input text in which the start token does not
occur (hence containing zero swap directives), processing ends in the
Scanning state and emitted output followed by the final match buffer equals
the input exactly, regardless of chunking; the output equals the whole
input exactly when no partially-matched start-token prefix is pending at
end of stream. -/
theorem no_directive_passthrough (t : SwapDirectiveTemplate) (data : DataNode)
    (chunks : List Str) (hinf : ¬ t.start <:+: chunks.flatten) :
    ∃ out buf : Str,
      runChunks t data .looking [] chunks = .ok (.looking, buf, out) ∧
        out ++ buf = chunks.flatten ∧ (buf = [] → out = chunks.flatten) := by
  obtain ⟨out, buf, h1, h2⟩ := runChunks_no_start t data chunks hinf
  exact ⟨out, buf, h1, h2, fun hb => by simpa [hb] using h2⟩

/-- Witness for C2 (amended): a directive-free two-chunk stream passes
through unchanged. -/
theorem no_directive_passthrough_witness :
    ∃ out buf : Str,
      runChunks tmplBang dataColorRed .looking [] ["ab".data, "cd".data] =
          .ok (.looking, buf, out) ∧
        out ++ buf = ["ab".data, "cd".data].flatten ∧
        (buf = [] → out = ["ab".data, "cd".data].flatten) :=
  no_directive_passthrough tmplBang dataColorRed ["ab".data, "cd".data]
    (by decide)

/-- C3: `getValue` splits the path on the separator and walks the tree
segment by segment — descending past a terminal fails with
`IndexIntoLeaf`, an absent key fails with `UnknownKey` naming the segment,
and a final non-terminal fails with `NotALeaf`; each message carries the
full path (and the missing segment).  On `{"color":{"red":"#ff0000"}}`
with separator `"."`: `"color.red"` resolves to `"#ff0000"`, `"color"`
fails with `NotALeaf`, `"color.blue"` fails with `UnknownKey` naming
`"blue"`, and `"color.red.dark"` fails with `IndexIntoLeaf`. -/
theorem resolver_walk_spec :
    (∀ (data : DataNode) (path sep : Str),
        getValue data path sep = getValueGo path data (jsSplit sep path)) ∧
      (∀ (path s : Str), getValueGo path (.leaf s) [] = .ok s) ∧
      (∀ (path : Str) (entries : List (Str × DataNode)),
        getValueGo path (.node entries) [] = .error (.notALeaf path)) ∧
      (∀ (path s seg : Str) (rest : List Str),
        getValueGo path (.leaf s) (seg :: rest) = .error (.indexIntoLeaf path)) ∧
      (∀ (path seg : Str) (entries : List (Str × DataNode)) (rest : List Str),
        getValueGo path (.node entries) (seg :: rest) =
          match List.lookup seg entries with
          | none => .error (.unknownKey seg path)
          | some child => getValueGo path child rest) ∧
      (∀ p : Str, p <:+: (Err.indexIntoLeaf p).message) ∧
      (∀ seg p : Str, seg <:+: (Err.unknownKey seg p).message ∧
        p <:+: (Err.unknownKey seg p).message) ∧
      (∀ p : Str, p <:+: (Err.notALeaf p).message) ∧
      getValue dataColorRed "color.red".data ".".data = .ok "#ff0000".data ∧
      getValue dataColorRed "color".data ".".data =
        .error (.notALeaf "color".data) ∧
      getValue dataColorRed "color.blue".data ".".data =
        .error (.unknownKey "blue".data "color.blue".data) ∧
      getValue dataColorRed "color.red.dark".data ".".data =
        .error (.indexIntoLeaf "color.red.dark".data) := by
  refine ⟨fun _ _ _ => rfl, fun _ _ => rfl, fun _ _ => rfl, fun _ _ _ _ => rfl,
    fun _ _ _ _ => rfl, ?_, ?_, ?_, by decide, by decide, by decide, by decide⟩
  · intro p
    exact ⟨"Tried to index into a leaf value in path \"".data, "\"".data, rfl⟩
  · intro seg p
    constructor
    · exact ⟨"Tried to index with a non-existent key \"".data,
        "\" in path \"".data ++ p ++ "\"".data, by simp [Err.message]⟩
    · exact ⟨"Tried to index with a non-existent key \"".data ++ seg ++
        "\" in path \"".data, "\"".data, by simp [Err.message]⟩
  · intro p
    exact ⟨"Value path \"".data, "\" didn't reach a leaf value".data, rfl⟩

/-- C4 counterexample: with template `"ab . e"` the input `"aab x e"`
contains the full directive `"ab x e"` (the start token `"ab"` occurs at
offset 1), and that directive on its own resolves to `"1"`; yet the scanner
passes `"aab x e"` through unchanged: after the partial match on the first
`"a"` fails, matching restarts from scratch on the next character, so the
overlapping occurrence of the start token is missed and no substitution is
performed. -/
theorem scanning_per_char_cex :
    processStream tmplAb dataX ["aab x e".data] =
        .ok (.looking, [], "aab x e".data) ∧
      processStream tmplAb dataX ["ab x e".data] =
        .ok (.looking, [], "1".data) ∧
      "ab".data <:+: "aab x e".data := by
  refine ⟨by decide, by decide, by decide⟩

/-- C4 (amended): in the Scanning state, a character that matches the next
expected character of the start token is accumulated into the match
buffer, and a character that breaks the match is flushed to output
verbatim together with the whole accumulated buffer, resetting the buffer;
input is never dropped, only deferred into the buffer or flushed
(`output ++ buffer ++ rest` is invariant).  However, matching restarts
from scratch after a mismatch, so an occurrence of a full directive that
overlaps a failed partial match can be missed. -/
theorem scanning_per_char (t : SwapDirectiveTemplate) (out buf : Str)
    (c : Char) (rest : Str) (hlt : buf.length < t.start.length) :
    (t.start[buf.length]? = some c →
        lookingGo t out buf (c :: rest) = lookingGo t out (buf ++ [c]) rest) ∧
      (t.start[buf.length]? ≠ some c →
        lookingGo t out buf (c :: rest) =
          lookingGo t (out ++ buf ++ [c]) [] rest) ∧
      ∀ rem : Str,
        (lookingGo t out buf rem).2.output ++
            (lookingGo t out buf rem).2.stateBuffer ++
            (lookingGo t out buf rem).2.remaining =
          out ++ buf ++ rem := by
  exact ⟨fun hc => lookingGo_cons_match t out buf c rest hlt hc,
    fun hc => lookingGo_cons_mismatch t out buf c rest hlt hc,
    fun rem => lookingGo_conserve t rem out buf⟩

/-- Witness for C4 (amended), at template `"<! . !>"`: `'<'` extends the
empty buffer, while `'x'` is flushed verbatim. -/
theorem scanning_per_char_witness :
    (lookingGo tmplBang "o".data [] ('<' :: "a".data) =
        lookingGo tmplBang "o".data ([] ++ ['<']) "a".data) ∧
      lookingGo tmplBang "o".data [] ('x' :: "a".data) =
        lookingGo tmplBang ("o".data ++ [] ++ ['x']) [] "a".data :=
  ⟨(scanning_per_char tmplBang "o".data [] '<' "a".data (by decide)).1
      (by decide),
    (scanning_per_char tmplBang "o".data [] 'x' "a".data (by decide)).2.1
      (by decide)⟩

/-- C5: while accumulating a directive, a buffer that has grown beyond
1024 characters without its suffix matching the end token makes processing
fail with `DirectiveTooLong`; and if the growing buffer reaches the end
token at some point without ever exceeding 1024 characters on the way,
that error is never raised. -/
theorem directive_too_long_bound :
    (∀ (t : SwapDirectiveTemplate) (data : DataNode) (out buf rem : Str),
        ¬ t.endTok.isSuffixOf buf → buf.length > 1024 →
        inDirectiveLoopGo t data out buf rem = .error .directiveTooLong) ∧
      ∀ (t : SwapDirectiveTemplate) (data : DataNode) (out buf rem : Str),
        (∃ k, k ≤ rem.length ∧ t.endTok.isSuffixOf (buf ++ rem.take k) ∧
          ∀ j, j ≤ k → (buf ++ rem.take j).length ≤ 1024) →
        inDirectiveLoopGo t data out buf rem ≠ .error .directiveTooLong := by
  constructor
  · exact fun t data out buf rem h1 h2 => dirLoop_tooLong t data out buf rem h1 h2
  · intro t data out buf rem hk
    obtain ⟨k, hkle, hksuf, hkbnd⟩ := hk
    induction rem generalizing buf k with
    | nil =>
      have hk0 : k = 0 := by simpa using hkle
      subst hk0
      rw [dirLoop_finish t data out buf [] (by simpa using hksuf)]
      cases hv : getValue data (jsTrim (jsSliceToNeg buf t.endTok.length))
          t.separator with
      | error e =>
        have hne := getValue_ne_tooLong data
          (jsTrim (jsSliceToNeg buf t.endTok.length)) t.separator
        rw [hv] at hne
        simpa using hne
      | ok value => simp
    | cons c rest ih =>
      by_cases hsuf : t.endTok.isSuffixOf buf
      · rw [dirLoop_finish t data out buf _ hsuf]
        cases hv : getValue data (jsTrim (jsSliceToNeg buf t.endTok.length))
            t.separator with
        | error e =>
          have hne := getValue_ne_tooLong data
            (jsTrim (jsSliceToNeg buf t.endTok.length)) t.separator
          rw [hv] at hne
          simpa using hne
        | ok value => simp
      · have hk1 : k ≠ 0 := by
          intro h0
          subst h0
          exact hsuf (by simpa using hksuf)
        obtain ⟨k', rfl⟩ := Nat.exists_eq_succ_of_ne_zero hk1
        have hlen : ¬ buf.length > 1024 := by
          have := hkbnd 0 (Nat.zero_le _)
          simpa using this
        rw [dirLoop_cons_cont t data out buf c rest hsuf hlen]
        refine ih (buf ++ [c]) k' (by simpa using hkle) ?_ ?_
        · simpa [List.append_assoc] using hksuf
        · intro j hj
          have := hkbnd (j + 1) (by omega)
          simpa [List.append_assoc] using this

set_option maxRecDepth 8192 in
/-- Witness for C5: a 1025-character buffer without the end token fails
with `DirectiveTooLong`, while the buffer of `"<!color.red!>"` (which
reaches `"!>"` at length 11) never does. -/
theorem directive_too_long_bound_witness :
    inDirectiveLoopGo tmplBang dataColorRed [] (List.replicate 1025 'a') [] =
        .error .directiveTooLong ∧
      inDirectiveLoopGo tmplBang dataColorRed [] "color.red".data "!>x".data ≠
        .error .directiveTooLong :=
  ⟨directive_too_long_bound.1 tmplBang dataColorRed [] (List.replicate 1025 'a')
      [] (by decide) (by decide),
    directive_too_long_bound.2 tmplBang dataColorRed [] "color.red".data
      "!>x".data ⟨2, by decide, by decide,
        by intro j hj; interval_cases j <;> decide⟩⟩


/-- C6: the accumulation buffer is reset exactly on a transition to a
different state function and preserved on suspension: within a chunk, when
the state function returns a different state the driver continues with an
emptied buffer, and when it returns the same state (suspension) the buffer
is kept; across a chunk boundary the final `(state, buffer)` pair of one
chunk is resumed unchanged by the next chunk. -/
theorem buffer_reset_discipline :
    (∀ (t : SwapDirectiveTemplate) (data : DataNode) (tag tag' : STag)
        (out buf rem : Str) (c' : Ctx),
        rem ≠ [] →
        runStep t data tag ⟨out, buf, rem⟩ = .ok (tag', c') →
        tag' ≠ tag →
        runChunkLoop t data tag ⟨out, buf, rem⟩ =
          runChunkLoop t data tag' ⟨c'.output, [], c'.remaining⟩) ∧
      (∀ (t : SwapDirectiveTemplate) (data : DataNode) (tag : STag)
        (out buf rem : Str) (c' : Ctx),
        rem ≠ [] →
        runStep t data tag ⟨out, buf, rem⟩ = .ok (tag, c') →
        runChunkLoop t data tag ⟨out, buf, rem⟩ =
          runChunkLoop t data tag ⟨c'.output, c'.stateBuffer, c'.remaining⟩) ∧
      ∀ (t : SwapDirectiveTemplate) (data : DataNode) (tag tag2 : STag)
        (buf buf2 out2 chunk : Str) (rest : List Str),
        runChunk t data tag buf chunk = .ok (tag2, buf2, out2) →
        runChunks t data tag buf (chunk :: rest) =
          match runChunks t data tag2 buf2 rest with
          | .error e => .error e
          | .ok (tag3, buf3, out3) => .ok (tag3, buf3, out2 ++ out3) := by
  refine ⟨?trans, ?susp, ?cross⟩
  case trans =>
    intro t data tag tag' out buf rem c' hrem hstep htag
    rw [runChunkLoop_eq t data tag out buf rem, if_neg hrem, hstep]
    simp only [if_neg htag]
  case susp =>
    intro t data tag out buf rem c' hrem hstep
    rw [runChunkLoop_eq t data tag out buf rem, if_neg hrem, hstep]
    simp only [eq_self_iff_true, if_true]
  case cross =>
    intro t data tag tag2 buf buf2 out2 chunk rest hstep
    rw [runChunks, hstep]

/-- Witness for C6: completing the start token `"<!"` transitions from
Scanning to the whitespace consumer with the buffer reset; the suspension
of Scanning on the partial chunk `"<"` carries its buffer into the next
chunk unchanged. -/
theorem buffer_reset_discipline_witness :
    (runChunkLoop tmplBang dataColorRed .looking ⟨[], [], "<!".data⟩ =
        runChunkLoop tmplBang dataColorRed .whitespace ⟨[], [], []⟩) ∧
      (runChunkLoop tmplBang dataColorRed .looking ⟨"a".data, [], "<".data⟩ =
        runChunkLoop tmplBang dataColorRed .looking ⟨"a".data, "<".data, []⟩) ∧
      runChunks tmplBang dataColorRed .looking [] ["a<".data, "x".data] =
        match runChunks tmplBang dataColorRed .looking "<".data ["x".data] with
        | .error e => .error e
        | .ok (tag3, buf3, out3) => .ok (tag3, buf3, "a".data ++ out3) :=
  ⟨buffer_reset_discipline.1 tmplBang dataColorRed .looking .whitespace [] []
      "<!".data ⟨[], "<!".data, []⟩ (by decide) (by decide) (by decide),
    buffer_reset_discipline.2.1 tmplBang dataColorRed .looking "a".data []
      "<".data ⟨"a".data, "<".data, []⟩ (by decide) (by decide),
    buffer_reset_discipline.2.2 tmplBang dataColorRed .looking .looking []
      "<".data "a".data "a<".data ["x".data] (by decide)⟩

/-- C7: when a resolver failure or `DirectiveTooLong` occurs while
processing a chunk, the stream emits nothing for that chunk — not even the
output accumulated before the error point — and emits nothing for any
later chunk: the trace of pushed outputs is empty and the stream ends with
the error. -/
theorem error_aborts_stream (t : SwapDirectiveTemplate) (data : DataNode)
    (tag : STag) (buf chunk : Str) (rest : List Str) (e : Err)
    (herr : runChunk t data tag buf chunk = .error e) :
    runChunksTrace t data tag buf (chunk :: rest) = ([], some e) := by
  rw [runChunksTrace, herr]

/-- Witness for C7: the chunk `"pre <!bad!> post"` fails on the unknown key
`"bad"`; despite the already-accumulated `"pre "`, the stream pushes
nothing, also for the following chunk. -/
theorem error_aborts_stream_witness :
    runChunksTrace tmplBang dataColorRed .looking []
        ["pre <!bad!> post".data, "more".data] =
      ([], some (.unknownKey "bad".data "bad".data)) :=
  error_aborts_stream tmplBang dataColorRed .looking [] "pre <!bad!> post".data
    ["more".data] (.unknownKey "bad".data "bad".data) (by decide)

/-- C8: template parsing trims the raw string, splits it on runs of
whitespace, and returns the three tokens in order as start, separator and
end; fewer than three tokens fail with the too-few-tokens error whose
message names the raw string, and more than three fail with the
too-many-tokens error. -/
theorem template_parsing_spec :
    (∀ raw a b c : Str, jsSplitWs (jsTrim raw) = [a, b, c] →
        SwapDirectiveTemplate.fromString raw = .ok ⟨a, b, c⟩) ∧
      (∀ raw : Str, (jsSplitWs (jsTrim raw)).length < 3 →
        SwapDirectiveTemplate.fromString raw = .error (.tooFew raw)) ∧
      (∀ raw : Str, (jsSplitWs (jsTrim raw)).length > 3 →
        SwapDirectiveTemplate.fromString raw = .error (.tooMany raw)) ∧
      ∀ raw : Str, raw <:+: (TmplErr.tooFew raw).message ∧
        raw <:+: (TmplErr.tooMany raw).message := by
  refine ⟨?exact3, ?few, ?many, ?msg⟩
  case exact3 =>
    intro raw a b c h
    simp [SwapDirectiveTemplate.fromString, h]
  case few =>
    intro raw h
    rcases ht : jsSplitWs (jsTrim raw) with _ | ⟨a, _ | ⟨b, _ | ⟨c, rest⟩⟩⟩
    · simp [SwapDirectiveTemplate.fromString, ht]
    · simp [SwapDirectiveTemplate.fromString, ht]
    · simp [SwapDirectiveTemplate.fromString, ht]
    · exfalso
      rw [ht] at h
      simp only [List.length_cons] at h
      omega
  case many =>
    intro raw h
    simp only [SwapDirectiveTemplate.fromString]
    rw [if_pos h]
  case msg =>
    intro raw
    constructor
    · exact ⟨"Invalid directive template \"".data,
        "\" has too few tokens.".data, rfl⟩
    · exact ⟨"Invalid directive template \"".data,
        "\" has too many tokens.".data, rfl⟩

/-- Witness for C8: `">>< . <<>"` parses into its three tokens, `"a b"`
fails with too-few, `"a b c d"` fails with too-many. -/
theorem template_parsing_spec_witness :
    SwapDirectiveTemplate.fromString ">>< . <<>".data =
        .ok ⟨">><".data, ".".data, "<<>".data⟩ ∧
      SwapDirectiveTemplate.fromString "a b".data =
        .error (.tooFew "a b".data) ∧
      SwapDirectiveTemplate.fromString "a b c d".data =
        .error (.tooMany "a b c d".data) :=
  ⟨template_parsing_spec.1 ">>< . <<>".data ">><".data ".".data "<<>".data
      (by decide),
    template_parsing_spec.2.1 "a b".data (by decide),
    template_parsing_spec.2.2.1 "a b c d".data (by decide)⟩

/-- C9: after the start token is matched, the whitespace-consumer state
discards exactly the leading whitespace of the pending input, suspending
across chunk boundaries until a non-whitespace character appears (which it
does not consume); once the end token is found, the path handed to the
resolver is the buffer minus the trailing end token, trimmed of
surrounding whitespace.  In particular `"<!  color.red   !>"` under
template `"<! . !>"` resolves the path `"color.red"`. -/
theorem whitespace_skip_and_path_trim :
    (∀ ctx : Ctx,
        whitespaceConsumerState ctx =
          (if ctx.remaining.dropWhile jsWhitespace = [] then .whitespace
            else .inDirective,
            ⟨ctx.output, ctx.stateBuffer, ctx.remaining.dropWhile jsWhitespace⟩)) ∧
      (∀ (t : SwapDirectiveTemplate) (data : DataNode) (out buf rem : Str),
        t.endTok.isSuffixOf buf →
        inDirectiveLoopGo t data out buf rem =
          match getValue data (jsTrim (jsSliceToNeg buf t.endTok.length))
              t.separator with
          | .error e => .error e
          | .ok value => .ok (.looking, ⟨out ++ value, buf, rem⟩)) ∧
      jsTrim (jsSliceToNeg "color.red   !>".data "!>".data.length) =
        "color.red".data ∧
      processStream tmplBang dataColorRed ["<!  color.red   !>".data] =
        .ok (.looking, [], "#ff0000".data) := by
  refine ⟨?ws, ?path, by decide, by decide⟩
  case ws =>
    intro ctx
    obtain ⟨out, buf, rem⟩ := ctx
    simp [whitespaceConsumerState, wsGo_eq]
  case path =>
    exact fun t data out buf rem h => dirLoop_finish t data out buf rem h

/-- Witness for C9: the whitespace consumer on `"  color.red   !>"` skips
the two leading spaces and stops at `'c'` without consuming it; the
directive buffer `"color.red   !>"` resolves `"color.red"` to
`"#ff0000"`. -/
theorem whitespace_skip_and_path_trim_witness :
    whitespaceConsumerState ⟨[], [], "  color.red   !>".data⟩ =
        (.inDirective, ⟨[], [], "color.red   !>".data⟩) ∧
      inDirectiveLoopGo tmplBang dataColorRed [] "color.red   !>".data [] =
        .ok (.looking, ⟨"#ff0000".data, "color.red   !>".data, []⟩) := by
  constructor
  · rw [whitespace_skip_and_path_trim.1 ⟨[], [], "  color.red   !>".data⟩]
    decide
  · rw [whitespace_skip_and_path_trim.2.1 tmplBang dataColorRed []
      "color.red   !>".data [] (by decide)]
    decide

/-- C10: `SwapTransform` defines no flush step, so at end of stream the
content still held in the accumulation buffer — a partially matched start
token or an opened, unterminated directive — is silently discarded: the
stream delivers only the per-chunk outputs, without that buffered text and
without an error.  With template `"<! . !>"`: streaming `"abc<"` delivers
`"abc"` (the pending `"<"` is dropped), and streaming `"ab <!color.red"`
delivers `"ab "` (the open directive's `"color.red"` is dropped). -/
theorem end_of_stream_discards_buffer :
    (∀ (tag : STag) (buf out : Str), endStream (.ok (tag, buf, out)) = some out) ∧
      (∀ e : Err, endStream (.error e) = none) ∧
      processStream tmplBang dataColorRed ["abc<".data] =
        .ok (.looking, "<".data, "abc".data) ∧
      endStream (processStream tmplBang dataColorRed ["abc<".data]) =
        some "abc".data ∧
      processStream tmplBang dataColorRed ["ab <!color.red".data] =
        .ok (.inDirective, "color.red".data, "ab ".data) ∧
      endStream (processStream tmplBang dataColorRed ["ab <!color.red".data]) =
        some "ab ".data :=
  ⟨fun _ _ _ => rfl, fun _ => rfl, by decide, by decide, by decide, by decide⟩
